import Mathlib

/-!
Verification development for the Re-Survey parcel-reconciliation engine.

Shallow embedding conventions, used consistently below:

* Shapely geometries are modelled as finite sets of unit grid cells
  (`Finset (ℤ × ℤ)`): a cell `(i, j)` stands for the closed unit square
  `[i, i+1] × [j, j+1]`.  Area is the cell count, perimeter the number of
  exposed unit edges, intersection/union/difference the set operations.
  Two closed cell regions intersect when they share a cell or touch along
  an edge or corner; they "touch" (shapely `touches`) when they intersect
  without sharing a cell.  Grid regions are always valid polygons, so
  `make_valid`/`buffer(0)` are the identity and the `is_valid` guards in
  the source are always true.  A region is multi-part (`MultiPolygon`)
  when it has more than one 4-connected component.
* Python floats are modelled as exact rationals (`ℚ`); `np.pi` is the
  exact rational value of the IEEE-754 double that `numpy` uses.
  Python's `round(x, 3)` is modelled as round-half-to-even on `ℚ`.
* A `GeoDataFrame` is an association list `List (ℕ × Geom)` of
  (index label, geometry) rows; `.loc` lookups are association-list
  lookups and in-place assignment is pointwise replacement.
* The R-tree spatial index (`gdf.sindex`) is modelled as returning every
  row as a bounding-box candidate.  This is behaviour-preserving: a pair
  whose bounding boxes never meet also never intersects, so the guarded
  body is a no-op for it.
* `scipy.optimize.linear_sum_assignment` is modelled as an exact
  minimum-total-cost assignment of the smaller side into the larger,
  choosing the lexicographically first optimum (scipy's tie-break among
  equal-cost optima is unspecified).
* String messages built with f-string interpolation are modelled by an
  inductive explanation type carrying the interpolated values; purely
  presentational fields (formatted message text) are otherwise omitted.
-/

/-- Grid cell: the closed unit square with lower-left corner at the point. -/
abbrev Cell : Type := ℤ × ℤ

/-- Geometry: a finite union of unit grid cells (model of a shapely geometry). -/
abbrev Geom : Type := Finset Cell

/-- Exact rational value of the IEEE-754 double `numpy.pi` (`np.pi`). -/
def npPi : ℚ := 884279719003555 / 281474976710656

/-- Area of a grid geometry: number of cells (each cell has unit area). -/
def gArea (g : Geom) : ℚ := g.card

/-- The four edge-neighbours of a cell. -/
def nbr4 (p : Cell) : List Cell :=
  [(p.1 + 1, p.2), (p.1 - 1, p.2), (p.1, p.2 + 1), (p.1, p.2 - 1)]

/-- Perimeter of a grid geometry: number of unit cell edges not shared with
another cell of the geometry. -/
def gPerim (g : Geom) : ℚ :=
  (g.sum fun p => ((nbr4 p).filter (fun q => q ∉ g)).length : ℕ)

/-- Closed unit squares of two cells intersect: Chebyshev distance at most 1. -/
def cellsMeet (p q : Cell) : Prop :=
  p.1 - q.1 ≤ 1 ∧ q.1 - p.1 ≤ 1 ∧ p.2 - q.2 ≤ 1 ∧ q.2 - p.2 ≤ 1

instance : DecidablePred fun pq : Cell × Cell => cellsMeet pq.1 pq.2 := by
  intro pq; unfold cellsMeet; infer_instance

instance (p q : Cell) : Decidable (cellsMeet p q) := by
  unfold cellsMeet; infer_instance

/-- Shapely `intersects`: the closed regions share at least one point. -/
def gIntersects (a b : Geom) : Prop := ∃ p ∈ a, ∃ q ∈ b, cellsMeet p q

instance (a b : Geom) : Decidable (gIntersects a b) := by
  unfold gIntersects; infer_instance

/-- Shapely `touches`: a common boundary point but no shared interior. -/
def gTouches (a b : Geom) : Prop := a ∩ b = ∅ ∧ gIntersects a b

instance (a b : Geom) : Decidable (gTouches a b) := by
  unfold gTouches; infer_instance

/-- Centroid of a grid geometry (mean of cell centres); `(0, 0)` when empty. -/
def gCentroid (g : Geom) : ℚ × ℚ :=
  if g.card = 0 then (0, 0)
  else ((g.sum fun p => (p.1 : ℚ) + 1/2) / g.card, (g.sum fun p => (p.2 : ℚ) + 1/2) / g.card)

/-- Isoperimetric quotient `4·π·area / perimeter²` (with `np.pi`). -/
def gIpq (g : Geom) : ℚ := 4 * npPi * gArea g / (gPerim g) ^ 2

/-- Axis-aligned rectangle of cells: `w × h` cells with lower-left cell `(x, y)`. -/
def rectCells (x y w h : ℤ) : Geom :=
  Finset.Icc x (x + w - 1) ×ˢ Finset.Icc y (y + h - 1)

/-- Linear order on cells used to pick deterministic representatives
(x-coordinate first, then y). -/
def cellLe (p q : Cell) : Prop := p.1 < q.1 ∨ (p.1 = q.1 ∧ p.2 ≤ q.2)

instance : DecidableRel cellLe := by
  intro p q; unfold cellLe; infer_instance

instance : IsTrans Cell cellLe where
  trans := by intro a b c hab hbc; unfold cellLe at *; omega

instance : IsAntisymm Cell cellLe where
  antisymm := by
    intro a b hab hba
    unfold cellLe at *
    have h1 : a.1 = b.1 := by omega
    have h2 : a.2 = b.2 := by omega
    exact Prod.ext h1 h2

instance : IsTotal Cell cellLe where
  total := by intro a b; unfold cellLe; omega

/-- One breadth-first expansion step of a connected component of `g`. -/
def expandOnce (g c : Geom) : Geom :=
  c ∪ g.filter fun p => (nbr4 p).any fun q => q ∈ c

/-- Expand a component to its 4-connected closure, with fuel. -/
def compClosure : ℕ → Geom → Geom → Geom
  | 0, _, c => c
  | n + 1, g, c =>
      let c' := expandOnce g c
      if c' = c then c else compClosure n g c'

/-- List of 4-connected components of a grid geometry, in deterministic order
(shapely's part order on a `MultiPolygon` is likewise unspecified). -/
def componentsAux : ℕ → Geom → List Geom
  | 0, _ => []
  | fuel + 1, g =>
      match (g.sort cellLe).head? with
      | none => []
      | some c =>
          let comp := compClosure g.card g {c}
          comp :: componentsAux fuel (g \ comp)

/-- The 4-connected components (polygon parts) of a grid geometry. -/
def componentsList (g : Geom) : List Geom := componentsAux g.card g

/-- The geometry is a `MultiPolygon`: more than one 4-connected part. -/
def multiPart (g : Geom) : Prop := 1 < (componentsList g).length

instance (g : Geom) : Decidable (multiPart g) := by
  unfold multiPart; infer_instance

/-- Largest-area part of a geometry, first such part on ties
(model of `max(mp.geoms, key=lambda g: g.area)`). -/
def largestComp (g : Geom) : Geom :=
  match componentsList g with
  | [] => ∅
  | h :: t => t.foldl (fun best x => if gArea best < gArea x then x else best) h

/-- Unit boundary edge of the grid: `(p, true)` is the edge between cells `p`
and `(p.1 + 1, p.2)`; `(p, false)` the edge between `p` and `(p.1, p.2 + 1)`. -/
abbrev GridEdge : Type := Cell × Bool

/-- The two cells separated by a grid edge. -/
def edgeCells (e : GridEdge) : Cell × Cell :=
  if e.2 then (e.1, (e.1.1 + 1, e.1.2)) else (e.1, (e.1.1, e.1.2 + 1))

/-- Boundary edges of a grid geometry: edges with exactly one side inside. -/
def boundaryEdges (g : Geom) : Finset GridEdge :=
  (g.biUnion fun p =>
      {((p, true) : GridEdge), ((p.1 - 1, p.2), true), (p, false), ((p.1, p.2 - 1), false)}).filter
    fun e => ((edgeCells e).1 ∈ g) ≠ ((edgeCells e).2 ∈ g)

/-- Length of the shared boundary of two grid regions
(model of `a.boundary.intersection(b.boundary).length`; corner-only contacts
contribute zero length). -/
def sharedBoundaryLen (a b : Geom) : ℚ :=
  ((boundaryEdges a ∩ boundaryEdges b).card : ℕ)

/-- Smallest and largest x/y cell coordinates of a nonempty geometry. -/
def gBounds (g : Geom) (hg : g.Nonempty) : ℤ × ℤ × ℤ × ℤ :=
  ((g.image Prod.fst).min' (hg.image _), (g.image Prod.snd).min' (hg.image _),
   (g.image Prod.fst).max' (hg.image _), (g.image Prod.snd).max' (hg.image _))

/-- Cells of the axis-aligned bounding box of a geometry
(model of the `total_bounds` rectangle, which is grid-aligned here). -/
def bboxCells (g : Geom) : Geom :=
  if hg : g.Nonempty then
    let b := gBounds g hg
    Finset.Icc b.1 b.2.2.1 ×ˢ Finset.Icc b.2.1 b.2.2.2
  else ∅

/-- Corner points of the unit squares of a geometry (integer lattice points). -/
def cornerPts (g : Geom) : Finset (ℤ × ℤ) :=
  g.biUnion fun p => {p, (p.1 + 1, p.2), (p.1, p.2 + 1), (p.1 + 1, p.2 + 1)}

/-- Two-dimensional cross product of `b - a` and `c - a`. -/
def cross2 (a b c : ℤ × ℤ) : ℤ :=
  (b.1 - a.1) * (c.2 - a.2) - (b.2 - a.2) * (c.1 - a.1)

/-- Point `q` lies in the convex hull of `{a, b, c}`: consistently oriented
cross products plus a bounding-box guard for the collinear case. -/
def inTriangle (a b c q : ℤ × ℤ) : Prop :=
  ((0 ≤ cross2 a b q ∧ 0 ≤ cross2 b c q ∧ 0 ≤ cross2 c a q) ∨
    (cross2 a b q ≤ 0 ∧ cross2 b c q ≤ 0 ∧ cross2 c a q ≤ 0)) ∧
  min a.1 (min b.1 c.1) ≤ q.1 ∧ q.1 ≤ max a.1 (max b.1 c.1) ∧
  min a.2 (min b.2 c.2) ≤ q.2 ∧ q.2 ≤ max a.2 (max b.2 c.2)

instance (a b c q : ℤ × ℤ) : Decidable (inTriangle a b c q) := by
  unfold inTriangle; infer_instance

/-- Point `q` lies in the convex hull of the finite point set `P`
(by Carathéodory, membership in the hull of some triple of `P`). -/
def inHullPts (P : Finset (ℤ × ℤ)) (q : ℤ × ℤ) : Prop :=
  ∃ a ∈ P, ∃ b ∈ P, ∃ c ∈ P, inTriangle a b c q

instance (P : Finset (ℤ × ℤ)) (q : ℤ × ℤ) : Decidable (inHullPts P q) := by
  unfold inHullPts; infer_instance

/-- Cells whose unit square lies inside the convex hull of the geometry
(model of shapely `convex_hull`, restricted to whole grid cells; the
fractional hull margin along non-axis-aligned hull edges is not
representable in the cell model and is dropped). -/
def hullCells (g : Geom) : Geom :=
  (bboxCells g).filter fun p =>
    inHullPts (cornerPts g) p ∧ inHullPts (cornerPts g) (p.1 + 1, p.2) ∧
    inHullPts (cornerPts g) (p.1, p.2 + 1) ∧ inHullPts (cornerPts g) (p.1 + 1, p.2 + 1)

/-- Rows of a GeoDataFrame: association list of (index label, geometry). -/
abbrev Gdf : Type := List (ℕ × Geom)

/-- Geometry at an index label (`gdf.loc[i, 'geometry']`); `∅` if absent. -/
def locG (gdf : Gdf) (i : ℕ) : Geom :=
  match gdf.lookup i with
  | some g => g
  | none => ∅

/-- Replace the geometry stored at an index label
(`gdf.loc[i, 'geometry'] = g`). -/
def updG (gdf : Gdf) (i : ℕ) (g : Geom) : Gdf :=
  gdf.map fun r => if r.1 = i then (r.1, g) else r

/-- Union of all geometries of a GeoDataFrame (`unary_union(gdf.geometry)`). -/
def unionAll (gdf : Gdf) : Geom := gdf.foldl (fun u r => u ∪ r.2) ∅

/-- Configuration of `TopologyFixer.__init__`. -/
structure TopoFixer where
  gapThreshold : ℚ
  overlapThreshold : ℚ
  sliverThreshold : ℚ
  minArea : ℚ

/-- Default thresholds of `TopologyFixer.__init__`. -/
def defaultFixer : TopoFixer :=
  { gapThreshold := 10, overlapThreshold := 1, sliverThreshold := 1/10, minArea := 10 }

/-- Model of `TopologyFixer._fix_invalid_geometries`: grid-cell geometries are
always valid, so `make_valid` is the identity and the invalid-mask branch is a
no-op; empty geometries are dropped; a `MultiPolygon` row keeps only its
largest-area part. -/
def fixInvalidFn (gdf : Gdf) : Gdf :=
  (gdf.filter fun r => r.2 ≠ ∅).map fun r =>
    if multiPart r.2 then (r.1, largestComp r.2) else r

/-- The `is_sliver` predicate of `TopologyFixer._remove_slivers`: empty
geometry, zero perimeter, or isoperimetric quotient below the threshold. -/
def isSliver (t : ℚ) (g : Geom) : Prop :=
  g = ∅ ∨ gPerim g = 0 ∨ gIpq g < t

instance (t : ℚ) (g : Geom) : Decidable (isSliver t g) := by
  unfold isSliver; infer_instance

/-- First row of maximal area (model of pandas `Series.idxmax`, which returns
the first occurrence of the maximum). -/
def firstMaxArea (h : ℕ × Geom) (t : Gdf) : ℕ × Geom :=
  t.foldl (fun best r => if gArea best.2 < gArea r.2 then r else best) h

/-- Merge one sliver row into the non-sliver rows: the sliver is unioned into
the first largest-area non-sliver row that touches it (the union of two valid
grid regions is always valid, so the `merged.is_valid` guard holds). -/
def mergeSliver (ns : Gdf) (sl : ℕ × Geom) : Gdf :=
  match ns.filter fun r => gTouches r.2 sl.2 with
  | [] => ns
  | h :: t => updG ns (firstMaxArea h t).1 (locG ns (firstMaxArea h t).1 ∪ sl.2)

/-- Model of `TopologyFixer._remove_slivers`: partition rows into slivers and
non-slivers, merge each sliver into its largest touching non-sliver (touch and
size are evaluated against the running, already-merged state), and return the
non-sliver rows only. -/
def removeSlivers (t : ℚ) (gdf : Gdf) : Gdf :=
  if (gdf.filter fun r => isSliver t r.2) ≠ [] ∧ (gdf.filter fun r => ¬ isSliver t r.2) ≠ [] then
    (gdf.filter fun r => isSliver t r.2).foldl mergeSliver
      (gdf.filter fun r => ¬ isSliver t r.2)
  else gdf.filter fun r => ¬ isSliver t r.2

/-- Inner loop body of `TopologyFixer._fix_overlaps` for the outer row with
label `idx`: state is (current rows, current geometry of the outer row).  The
outer geometry starts from the `iterrows` snapshot and is refreshed only when
the outer row itself is updated, exactly as in the source. -/
def overlapStep (t : ℚ) (processed : Finset ℕ) (idx : ℕ) :
    Gdf × Geom → ℕ × Geom → Gdf × Geom
  | (st, pg), (oidx, _) =>
      if oidx ≤ idx ∨ oidx ∈ processed then (st, pg)
      else
        let og := locG st oidx
        if gIntersects pg og then
          let inter := pg ∩ og
          if t < gArea inter then
            if gArea og ≤ gArea pg then
              let newOther := og \ inter
              if newOther ≠ ∅ then (updG st oidx newOther, pg) else (st, pg)
            else
              let newP := pg \ inter
              if newP ≠ ∅ then (updG st idx newP, newP) else (st, pg)
          else (st, pg)
        else (st, pg)

/-- Model of `TopologyFixer._fix_overlaps`: for each row in order, against
every candidate row with a larger label, subtract an above-threshold
intersection from the smaller-area geometry of the pair, skipping the update
when the difference would be empty.  `iterrows` materialises its values once,
so each outer geometry is the input snapshot, not the running state. -/
def fixOverlapsFn (t : ℚ) (gdf : Gdf) : Gdf :=
  (gdf.foldl
      (fun (acc : Gdf × Finset ℕ) (row : ℕ × Geom) =>
        if row.1 ∈ acc.2 then acc
        else
          let res := gdf.foldl (overlapStep t acc.2 row.1) (acc.1, row.2)
          (res.1, insert row.1 acc.2))
      (gdf, ∅)).1

/-- Body of the per-gap loop of `TopologyFixer._fill_gaps`: skip gaps above
`gap_threshold` or of negligible area; otherwise merge the gap into the row
sharing the longest boundary with it (strictly longer wins, so the first
longest row is chosen; nothing happens when no row shares positive length). -/
def fillGapStep (f : TopoFixer) (st : Gdf) (gap : Geom) : Gdf :=
  if f.gapThreshold < gArea gap then st
  else if gArea gap < 1/100 then st
  else
    let best := st.foldl
      (fun (acc : Option ℕ × ℚ) r =>
        let sh := sharedBoundaryLen r.2 gap
        if acc.2 < sh then (some r.1, sh) else acc)
      (none, 0)
    match best.1 with
    | some j => if 0 < best.2 then updG st j (locG st j ∪ gap) else st
    | none => st

/-- Model of `TopologyFixer._fill_gaps`: compute the difference between the
bounding box of all parcels and their union, split it into parts, and merge
each sufficiently small part into the parcel sharing the longest boundary.
The gap parts are computed once, against the initial union. -/
def fillGapsFn (f : TopoFixer) (gdf : Gdf) : Gdf :=
  if gdf.length < 2 then gdf
  else
    let gaps := bboxCells (unionAll gdf) \ unionAll gdf
    if gaps = ∅ then gdf
    else (componentsList gaps).foldl (fillGapStep f) gdf

/-- Re-number rows `0, 1, 2, …` (model of `reset_index(drop=True)` together
with the `parcel_id = range(len(gdf))` renumbering). -/
def relabel (gdf : Gdf) : Gdf := (gdf.map Prod.snd).enum

/-- Model of `TopologyFixer.fix_topology`: optionally repair invalid
geometries, remove slivers, fix overlaps and fill gaps, then drop rows below
`min_area` and renumber. -/
def fixTopology (f : TopoFixer) (gdf : Gdf)
    (doInvalid doGaps doOverlaps doSlivers : Bool) : Gdf :=
  let g1 := if doInvalid then fixInvalidFn gdf else gdf
  let g2 := if doSlivers then removeSlivers f.sliverThreshold g1 else g1
  let g3 := if doOverlaps then fixOverlapsFn f.overlapThreshold g2 else g2
  let g4 := if doGaps then fillGapsFn f g3 else g3
  relabel (g4.filter fun r => f.minArea ≤ gArea r.2)

/-- Issue categories of `TopologyIssue`. -/
inductive IssueType where
  | INVALID
  | OVERLAP
  | GAP
  | SLIVER
  deriving DecidableEq, Repr

/-- Severity levels of `TopologyIssue`. -/
inductive Severity where
  | HIGH
  | MEDIUM
  | LOW
  deriving DecidableEq, Repr

/-- Model of `TopologyIssue` (the formatted `message` string is presentation
only and is omitted). -/
structure TopologyIssue where
  type : IssueType
  severity : Severity
  location : ℚ × ℚ
  area : ℚ
  parcelsInvolved : List ℕ
  deriving DecidableEq, Repr

/-- A grid-cell region is always a valid polygon. -/
def geomIsValid (_ : Geom) : Prop := True

instance (g : Geom) : Decidable (geomIsValid g) := by
  unfold geomIsValid; infer_instance

/-- Invalid-geometry issues of `TopologyFixer.validate` (always empty in the
grid model, but kept as the source's filter over the invalid mask). -/
def detectInvalidFn (gdf : Gdf) : List TopologyIssue :=
  (gdf.filter fun r => ¬ geomIsValid r.2).map fun r =>
    { type := IssueType.INVALID, severity := Severity.HIGH, location := gCentroid r.2,
      area := gArea r.2, parcelsInvolved := [r.1] }

/-- Model of `TopologyFixer._detect_overlaps`: one OVERLAP issue per pair of
rows (smaller label first) whose intersection area exceeds the threshold,
severity HIGH above 10 square units. -/
def detectOverlapsFn (t : ℚ) (gdf : Gdf) : List TopologyIssue :=
  gdf.flatMap fun r1 =>
    (gdf.filter fun r2 => r1.1 < r2.1).filterMap fun r2 =>
      if gIntersects r1.2 r2.2 ∧ t < gArea (r1.2 ∩ r2.2) then
        some { type := IssueType.OVERLAP,
               severity := if 10 < gArea (r1.2 ∩ r2.2) then Severity.HIGH else Severity.MEDIUM,
               location := gCentroid (r1.2 ∩ r2.2), area := gArea (r1.2 ∩ r2.2),
               parcelsInvolved := [r1.1, r2.1] }
      else none

/-- Model of `TopologyFixer._detect_gaps`: parts of the difference between the
convex hull of the union and the union itself, reported when larger than one
square unit; adjacency (`touches` or distance below 0.1, which for grid
regions is exactly "the closed regions meet") lists at most five parcels. -/
def detectGapsFn (f : TopoFixer) (gdf : Gdf) : List TopologyIssue :=
  if gdf.length < 2 then []
  else
    let u := unionAll gdf
    let gaps := hullCells u \ u
    if gaps = ∅ then []
    else
      (componentsList gaps).filterMap fun gap =>
        if 1 < gArea gap then
          some { type := IssueType.GAP,
                 severity := if f.gapThreshold < gArea gap then Severity.HIGH else Severity.LOW,
                 location := gCentroid gap, area := gArea gap,
                 parcelsInvolved :=
                   ((gdf.filter fun r => gTouches r.2 gap ∨ gIntersects r.2 gap).map
                     Prod.fst).take 5 }
        else none

/-- Model of `TopologyFixer._detect_slivers`: one SLIVER issue per row with
positive perimeter and isoperimetric quotient below the threshold. -/
def detectSliversFn (t : ℚ) (gdf : Gdf) : List TopologyIssue :=
  gdf.filterMap fun r =>
    if r.2 ≠ ∅ ∧ 0 < gPerim r.2 ∧ gIpq r.2 < t then
      some { type := IssueType.SLIVER, severity := Severity.MEDIUM,
             location := gCentroid r.2, area := gArea r.2, parcelsInvolved := [r.1] }
    else none

/-- Model of `TopologyFixer.validate`: the concatenated issue list (invalid,
overlaps, gaps, slivers) together with the `is_valid` flag. -/
def validateFn (f : TopoFixer) (gdf : Gdf) : Prop × List TopologyIssue :=
  let issues := detectInvalidFn gdf ++ detectOverlapsFn f.overlapThreshold gdf ++
    detectGapsFn f gdf ++ detectSliversFn f.sliverThreshold gdf
  (issues.length = 0, issues)

/-- Administrative record as consumed by `RORConstraintEngine`
(`survey_no` and `expected_area_sqm`; owner and land type are carried
through unchanged and are omitted). -/
structure RorRecord where
  surveyNo : String
  expectedArea : ℚ
  deriving DecidableEq, Repr

/-- All injective pick sequences of length `m` from the available rows, in
lexicographic order of the generation. -/
def injections : ℕ → List ℕ → List (List ℕ)
  | 0, _ => [[]]
  | m + 1, avail => avail.flatMap fun x => (injections m (avail.erase x)).map (x :: ·)

/-- Total cost of assigning row `σ[j]` to column `j`. -/
def totalCost (cost : ℕ → ℕ → ℚ) (σ : List ℕ) : ℚ :=
  (σ.enum.map fun ji => cost ji.2 ji.1).sum

/-- First minimal-cost element of a candidate list. -/
def firstMinCost (cost : ℕ → ℕ → ℚ) : List (List ℕ) → Option (List ℕ)
  | [] => none
  | h :: t => some (t.foldl (fun best σ => if totalCost cost σ < totalCost cost best then σ else best) h)

/-- Model of `scipy.optimize.linear_sum_assignment` for an `n × m` cost
matrix with `m ≤ n`: a minimum-total-cost injective assignment of every
column to a distinct row, as `(row, column)` pairs.  Among equal-cost optima
the lexicographically first is chosen (scipy's tie-break is unspecified). -/
def minAssignment (n m : ℕ) (cost : ℕ → ℕ → ℚ) : List (ℕ × ℕ) :=
  match firstMinCost cost (injections m (List.range n)) with
  | none => []
  | some σ => σ.enum.map fun ji => (ji.2, ji.1)

/-- Cost matrix of `RORConstraintEngine.match_segments_to_ror`: relative area
difference against the record's expected area, or `1.0` when the record has
no positive expected area. -/
def rorCost (segs : List Geom) (rors : List RorRecord) (i j : ℕ) : ℚ :=
  let sa := gArea (segs.getD i ∅)
  let ra := (rors.getD j ⟨"", 0⟩).expectedArea
  if 0 < ra then |sa - ra| / ra else 1

/-- Assignment pairs `(segment, record)` used by
`RORConstraintEngine.match_segments_to_ror`: the optimal assignment of the
smaller side, via the transposed solve when there are fewer segments. -/
def rorAssignPairs (segs : List Geom) (rors : List RorRecord) : List (ℕ × ℕ) :=
  if rors.length ≤ segs.length then
    minAssignment segs.length rors.length (rorCost segs rors)
  else
    (minAssignment rors.length segs.length fun j i => rorCost segs rors i j).map
      fun p => (p.2, p.1)

/-- Per-segment ROR columns written by `match_segments_to_ror`
(`ror_owner`/`ror_land_type` are carried through unchanged and omitted). -/
structure SegRorInfo where
  rorSurveyNo : Option String
  rorAreaSqm : Option ℚ
  areaMismatch : Option ℚ
  isMatched : Bool
  deriving DecidableEq, Repr

/-- Model of the `MatchResult` dataclass. -/
structure MatchResult where
  segmentId : ℕ
  rorSurveyNo : Option String
  rorAreaSqm : Option ℚ
  generatedAreaSqm : ℚ
  areaMismatch : ℚ
  matchConfidence : ℚ
  deriving DecidableEq, Repr

/-- Assignment pairs applied by `match_segments_to_ror`: every solver pair
whose indices are in range (the guard `i < n_segments and j < n_ror`; there
is no cost-based acceptance test in the source). -/
def rorApplied (segs : List Geom) (rors : List RorRecord) : List (ℕ × ℕ) :=
  (rorAssignPairs segs rors).filter fun p => p.1 < segs.length ∧ p.2 < rors.length

/-- Per-segment ROR columns after `match_segments_to_ror` applied every
assignment pair (each segment occurs in at most one pair, so looking up the
first pair of the segment reproduces the column writes). -/
def rorInfos (segs : List Geom) (rors : List RorRecord) : List SegRorInfo :=
  (List.range segs.length).map fun i =>
    match (rorApplied segs rors).find? fun p => p.1 = i with
    | some p =>
        { rorSurveyNo := some (rors.getD p.2 ⟨"", 0⟩).surveyNo,
          rorAreaSqm := some (rors.getD p.2 ⟨"", 0⟩).expectedArea,
          areaMismatch := some (rorCost segs rors p.1 p.2), isMatched := true }
    | none => { rorSurveyNo := none, rorAreaSqm := none, areaMismatch := none,
                isMatched := false }

/-- `MatchResult` entries for the applied assignment pairs, with confidence
`1.0 - min(mismatch, 1.0)`. -/
def rorResults (segs : List Geom) (rors : List RorRecord) : List MatchResult :=
  (rorApplied segs rors).map fun p =>
    { segmentId := p.1, rorSurveyNo := some (rors.getD p.2 ⟨"", 0⟩).surveyNo,
      rorAreaSqm := some (rors.getD p.2 ⟨"", 0⟩).expectedArea,
      generatedAreaSqm := gArea (segs.getD p.1 ∅),
      areaMismatch := rorCost segs rors p.1 p.2,
      matchConfidence := 1 - min (rorCost segs rors p.1 p.2) 1 }

/-- `MatchResult` entries for the segments left unmatched: mismatch `1.0`,
confidence `0.0`. -/
def rorUnmatched (segs : List Geom) (rors : List RorRecord) : List MatchResult :=
  (List.range segs.length).filterMap fun i =>
    if ((rorInfos segs rors).getD i ⟨none, none, none, false⟩).isMatched then none
    else some { segmentId := i, rorSurveyNo := none, rorAreaSqm := none,
                generatedAreaSqm := gArea (segs.getD i ∅), areaMismatch := 1,
                matchConfidence := 0 }

/-- Model of `RORConstraintEngine.match_segments_to_ror`: solve the optimal
assignment of segments to records and apply every returned pair (the source
has no cost-based acceptance test), then append a `MatchResult` for every
segment left without a pair. -/
def matchSegmentsToRor (segs : List Geom) (rors : List RorRecord) :
    List SegRorInfo × List MatchResult :=
  (rorInfos segs rors, rorResults segs rors ++ rorUnmatched segs rors)

/-- Review routing status (`ReviewStatus`). -/
inductive ReviewStatus where
  | AUTO_APPROVE
  | DESKTOP_REVIEW
  | FIELD_VERIFICATION
  deriving DecidableEq, Repr

/-- The six confidence factors (`ConfidenceFactors`). -/
structure ConfidenceFactors where
  areaMatch : ℚ
  hasRorLink : ℚ
  boundaryClarity : ℚ
  shapeRegularity : ℚ
  countConsistency : ℚ
  sizeReasonable : ℚ
  deriving DecidableEq, Repr

/-- Weights for the six factors (`ConfidenceScorer` weight dictionary). -/
structure FactorWeights where
  areaMatch : ℚ
  hasRorLink : ℚ
  boundaryClarity : ℚ
  shapeRegularity : ℚ
  countConsistency : ℚ
  sizeReasonable : ℚ
  deriving DecidableEq, Repr

/-- Sum of the six weights. -/
def sumW (w : FactorWeights) : ℚ :=
  w.areaMatch + w.hasRorLink + w.boundaryClarity + w.shapeRegularity +
    w.countConsistency + w.sizeReasonable

/-- `ConfidenceScorer.DEFAULT_WEIGHTS`. -/
def defaultWeights : FactorWeights :=
  { areaMatch := 3/10, hasRorLink := 3/20, boundaryClarity := 3/20,
    shapeRegularity := 1/10, countConsistency := 3/20, sizeReasonable := 3/20 }

/-- State of a constructed `ConfidenceScorer`. -/
structure Scorer where
  weights : FactorWeights
  autoThreshold : ℚ
  desktopThreshold : ℚ
  deriving DecidableEq, Repr

/-- Divide every weight by `t`. -/
def normalizeW (w : FactorWeights) (t : ℚ) : FactorWeights :=
  { areaMatch := w.areaMatch / t, hasRorLink := w.hasRorLink / t,
    boundaryClarity := w.boundaryClarity / t, shapeRegularity := w.shapeRegularity / t,
    countConsistency := w.countConsistency / t, sizeReasonable := w.sizeReasonable / t }

/-- Model of `ConfidenceScorer.__init__`: take the supplied weights or the
defaults; when the total differs from 1 by more than `0.01`, divide every
weight by the total (no warning is emitted).  A zero total makes that
division a Python `ZeroDivisionError`, modelled as `none`. -/
def mkScorer (weights : Option FactorWeights) (auto desktop : ℚ) : Option Scorer :=
  if 1/100 < |sumW (weights.getD defaultWeights) - 1| then
    if sumW (weights.getD defaultWeights) = 0 then none
    else
      some { weights := normalizeW (weights.getD defaultWeights) (sumW (weights.getD defaultWeights)),
             autoThreshold := auto, desktopThreshold := desktop }
  else some { weights := weights.getD defaultWeights, autoThreshold := auto, desktopThreshold := desktop }

/-- The scorer produced by `ConfidenceScorer()` with all defaults. -/
def defaultScorer : Scorer :=
  { weights := defaultWeights, autoThreshold := 17/20, desktopThreshold := 3/5 }

/-- Model of `ConfidenceScorer.calculate_shape_regularity`: 0 for an invalid
or empty geometry or zero perimeter, otherwise the isoperimetric quotient
clipped to `[0, 1]`. -/
def shapeRegularityOf (g : Geom) : ℚ :=
  if ¬ geomIsValid g ∨ g = ∅ then 0
  else if gPerim g = 0 then 0
  else min (max (gIpq g) 0) 1

/-- Model of `ConfidenceScorer.calculate_size_reasonability` (with the
tolerance bounds `lower = min_expected * 0.5` and `upper = max_expected * 1.5`
inlined). -/
def sizeReasonability (areaSqm minExpected maxExpected : ℚ) : ℚ :=
  if minExpected * (1/2) ≤ areaSqm ∧ areaSqm ≤ maxExpected * (3/2) then 1
  else if areaSqm < minExpected * (1/2) then max 0 (areaSqm / (minExpected * (1/2)))
  else max 0 (maxExpected * (3/2) / areaSqm)

/-- Entries of the per-parcel explanation list, carrying the values that the
source interpolates into its f-strings. -/
inductive ExplEntry where
  | rationale (r : ReviewStatus)
  | areaWithin5
  | areaMismatchPct (m : ℚ)
  | noRorArea
  | linkedToRor (s : String)
  | noRorMatch
  | regularShape
  | irregularShape
  | countMismatch
  | unusualSize
  deriving DecidableEq, Repr

/-- Attribute view of one parcel row as read by
`ConfidenceScorer.score_parcel` (absent or NaN attributes are `none`). -/
structure ParcelRow where
  name : ℕ
  parcelId : Option ℕ
  areaMismatch : Option ℚ
  rorSurveyNo : Option String
  edgeScore : Option ℚ
  boundaryClarityAttr : Option ℚ
  geometry : Geom

/-- Village statistics dictionary passed to `score_parcel`. -/
structure VillageStats where
  expectedCount : ℕ
  actualCount : ℕ
  minAreaSqm : ℚ
  maxAreaSqm : ℚ

/-- The effective edge signal:
`parcel.get('edge_score', parcel.get('boundary_clarity'))`. -/
def effEdgeScore (p : ParcelRow) : Option ℚ := p.edgeScore.orElse fun _ => p.boundaryClarityAttr

/-- Factor 1 of `score_parcel`: area match, `max(0, 1 - area_mismatch)`, or
`0.5` when no mismatch value is available. -/
def areaMatchFactor (p : ParcelRow) : ℚ :=
  match p.areaMismatch with
  | some m => max 0 (1 - m)
  | none => 1/2

/-- Factor 2 of `score_parcel`: `1.0` when linked to a ROR record, else `0.0`. -/
def rorLinkFactor (p : ParcelRow) : ℚ :=
  match p.rorSurveyNo with
  | some _ => 1
  | none => 0

/-- Factor 3 of `score_parcel`: the effective edge signal, passed through
unchanged when present (no clamping in the source), else `0.5`. -/
def clarityFactor (p : ParcelRow) : ℚ :=
  match effEdgeScore p with
  | some e => e
  | none => 1/2

/-- Factor 5 of `score_parcel`: village parcel-count consistency ratio, or
`0.5` when either count is zero. -/
def countFactor (vs : VillageStats) : ℚ :=
  if 0 < vs.expectedCount ∧ 0 < vs.actualCount then
    (min vs.expectedCount vs.actualCount : ℚ) / (max vs.expectedCount vs.actualCount : ℚ)
  else 1/2

/-- The six factors computed by `score_parcel` for one parcel. -/
def computeFactors (p : ParcelRow) (vs : VillageStats) : ConfidenceFactors :=
  { areaMatch := areaMatchFactor p, hasRorLink := rorLinkFactor p,
    boundaryClarity := clarityFactor p, shapeRegularity := shapeRegularityOf p.geometry,
    countConsistency := countFactor vs,
    sizeReasonable := sizeReasonability (gArea p.geometry) vs.minAreaSqm vs.maxAreaSqm }

/-- Explanation entries accumulated while `score_parcel` computes the six
factors, in source order. -/
def factorExpl (p : ParcelRow) (vs : VillageStats) : List ExplEntry :=
  (match p.areaMismatch with
   | some m =>
       if 19/20 ≤ areaMatchFactor p then [ExplEntry.areaWithin5]
       else if areaMatchFactor p < 4/5 then [ExplEntry.areaMismatchPct m] else []
   | none => [ExplEntry.noRorArea]) ++
  (match p.rorSurveyNo with
   | some s => [ExplEntry.linkedToRor s]
   | none => [ExplEntry.noRorMatch]) ++
  (if 7/10 ≤ shapeRegularityOf p.geometry then [ExplEntry.regularShape]
   else if shapeRegularityOf p.geometry < 3/10 then [ExplEntry.irregularShape] else []) ++
  (if 0 < vs.expectedCount ∧ 0 < vs.actualCount then
     if countFactor vs < 4/5 then [ExplEntry.countMismatch] else []
   else []) ++
  (if sizeReasonability (gArea p.geometry) vs.minAreaSqm vs.maxAreaSqm < 1/2 then
     [ExplEntry.unusualSize]
   else [])

/-- Weighted sum over the six factors
(`sum(factor_dict[k] * self.weights[k] for k in factor_dict)`). -/
def weightedSum (w : FactorWeights) (f : ConfidenceFactors) : ℚ :=
  f.areaMatch * w.areaMatch + f.hasRorLink * w.hasRorLink +
    f.boundaryClarity * w.boundaryClarity + f.shapeRegularity * w.shapeRegularity +
    f.countConsistency * w.countConsistency + f.sizeReasonable * w.sizeReasonable

/-- Round-half-to-even to an integer (semantics of Python's `round`). -/
def rhe (y : ℚ) : ℤ :=
  if y - ⌊y⌋ < 1/2 then ⌊y⌋
  else if 1/2 < y - ⌊y⌋ then ⌊y⌋ + 1
  else if Even ⌊y⌋ then ⌊y⌋ else ⌊y⌋ + 1

/-- Python's `round(x, 3)` on the rational model. -/
def round3 (y : ℚ) : ℚ := (rhe (1000 * y) : ℚ) / 1000

/-- The raw weighted confidence sum of a parcel, before rounding. -/
def rawScore (sc : Scorer) (p : ParcelRow) (vs : VillageStats) : ℚ :=
  weightedSum sc.weights (computeFactors p vs)

/-- Rounding, threshold comparison and routing-rationale insertion at the end
of `score_parcel`: returns (score, routing, explanation list). -/
def finishScore (sc : Scorer) (raw : ℚ) (expl : List ExplEntry) :
    ℚ × ReviewStatus × List ExplEntry :=
  if sc.autoThreshold ≤ round3 raw then
    (round3 raw, ReviewStatus.AUTO_APPROVE, ExplEntry.rationale ReviewStatus.AUTO_APPROVE :: expl)
  else if sc.desktopThreshold ≤ round3 raw then
    (round3 raw, ReviewStatus.DESKTOP_REVIEW, ExplEntry.rationale ReviewStatus.DESKTOP_REVIEW :: expl)
  else
    (round3 raw, ReviewStatus.FIELD_VERIFICATION,
      ExplEntry.rationale ReviewStatus.FIELD_VERIFICATION :: expl)

/-- Result record of `score_parcel` (`ParcelConfidence`). -/
structure ParcelConfidence where
  parcelId : ℕ
  confidenceScore : ℚ
  routing : ReviewStatus
  factors : ConfidenceFactors
  explanation : List ExplEntry
  deriving DecidableEq, Repr

/-- Model of `ConfidenceScorer.score_parcel`. -/
def scoreParcel (sc : Scorer) (p : ParcelRow) (vs : VillageStats) : ParcelConfidence :=
  { parcelId := p.parcelId.getD p.name,
    confidenceScore := (finishScore sc (rawScore sc p vs) (factorExpl p vs)).1,
    routing := (finishScore sc (rawScore sc p vs) (factorExpl p vs)).2.1,
    factors := computeFactors p vs,
    explanation := (finishScore sc (rawScore sc p vs) (factorExpl p vs)).2.2 }

/-- Model of `ParcelEvaluator._compute_iou`: intersection area over union
area, `0` when the union has zero area (grid geometries are always valid, so
the `buffer(0)` repair is the identity). -/
def computeIoU (a b : Geom) : ℚ :=
  let i := gArea (a ∩ b)
  let u := gArea (a ∪ b)
  if u = 0 then 0 else i / u

set_option maxRecDepth 100000

/-- Outer parcel of the containment example: a 4 × 4 block of cells. -/
def outerG : Geom := rectCells 0 0 4 4

/-- Inner parcel of the containment example: a 4 × 3 block contained in
`outerG`; subtracting their intersection from it would empty it. -/
def innerG : Geom := rectCells 0 0 4 3

/-- Fragmentation example, larger parcel: a 2 × 5 block. -/
def fragA : Geom := rectCells 2 0 2 5

/-- Fragmentation example, smaller parcel: a 5 × 1 row crossing `fragA`, so
subtracting the intersection splits it into two parts. -/
def fragB : Geom := rectCells 0 0 5 1

/-- Thirty-percent-overlap example, larger rectangle (18 cells). -/
def ovA : Geom := rectCells 0 0 6 3

/-- Thirty-percent-overlap example, smaller rectangle (10 cells, 3 of which
lie inside `ovA`). -/
def ovB : Geom := rectCells 5 0 2 5

/-- Sliver example: a 1 × 30 bar, isoperimetric quotient ≈ 0.098 < 0.1. -/
def barG : Geom := rectCells 0 0 30 1

/-- Sliver example: a 2 × 2 square touching `barG` along two cell edges. -/
def sqG : Geom := rectCells 0 1 2 2

/-- A segment of area 100 (10 × 10 cells) for the matcher scenario. -/
def seg100 : Geom := rectCells 0 0 10 10

/-- A segment of area 50 (5 × 10 cells) for the matcher counterexample. -/
def seg50 : Geom := rectCells 0 0 5 10

/-- Records of the matcher scenario: expected areas 100, 100 and 5000. -/
def rorScenario : List RorRecord := [⟨"R1", 100⟩, ⟨"R2", 100⟩, ⟨"R3", 5000⟩]

/-- Parcel row whose external edge score is 10: every other factor is benign,
but the unclamped boundary-clarity factor pushes the score above 1. -/
def hotParcel : ParcelRow :=
  { name := 0, parcelId := none, areaMismatch := none, rorSurveyNo := none,
    edgeScore := some 10, boundaryClarityAttr := none, geometry := ∅ }

/-- Parcel row whose raw weighted sum is exactly 0.8495: area matches, record
linked, counts equal, size in range, empty geometry, edge score 199/300. -/
def tieParcel : ParcelRow :=
  { name := 0, parcelId := none, areaMismatch := some 0, rorSurveyNo := some "R",
    edgeScore := some (199/300), boundaryClarityAttr := none, geometry := ∅ }

/-- Village statistics with zero counts and zero expected areas. -/
def zeroStats : VillageStats :=
  { expectedCount := 0, actualCount := 0, minAreaSqm := 0, maxAreaSqm := 0 }

/-- Village statistics with matching unit counts and zero expected areas. -/
def unitStats : VillageStats :=
  { expectedCount := 1, actualCount := 1, minAreaSqm := 0, maxAreaSqm := 0 }

/-- A weight dictionary summing to 1.005: inside the constructor's 0.01
tolerance, so it is stored without normalization. -/
def offWeights : FactorWeights :=
  { areaMatch := 61/200, hasRorLink := 3/20, boundaryClarity := 3/20,
    shapeRegularity := 1/10, countConsistency := 3/20, sizeReasonable := 3/20 }

/-- A weight dictionary of six ones (sums to 6, normalized on construction). -/
def onesWeights : FactorWeights :=
  { areaMatch := 1, hasRorLink := 1, boundaryClarity := 1,
    shapeRegularity := 1, countConsistency := 1, sizeReasonable := 1 }

/-- The all-ones confidence factor vector of the routing scenario. -/
def allOneFactors : ConfidenceFactors :=
  { areaMatch := 1, hasRorLink := 1, boundaryClarity := 1,
    shapeRegularity := 1, countConsistency := 1, sizeReasonable := 1 }

theorem rhe_cases (y : ℚ) : rhe y = ⌊y⌋ ∨ rhe y = ⌊y⌋ + 1 := by
  unfold rhe
  split_ifs <;> simp

theorem rhe_ge (y : ℚ) : y - 1/2 ≤ (rhe y : ℚ) := by
  have h1 : (⌊y⌋ : ℚ) ≤ y := Int.floor_le y
  have h2 : y < ⌊y⌋ + 1 := Int.lt_floor_add_one y
  unfold rhe
  split_ifs with ha hb hc <;> push_cast <;> linarith

theorem rhe_le (y : ℚ) : (rhe y : ℚ) ≤ y + 1/2 := by
  have h1 : (⌊y⌋ : ℚ) ≤ y := Int.floor_le y
  have h2 : y < ⌊y⌋ + 1 := Int.lt_floor_add_one y
  unfold rhe
  split_ifs with ha hb hc <;> push_cast <;> linarith

theorem rhe_ge_succ_of_odd (k : ℤ) (y : ℚ) (hk : ¬ Even k) (h : (k : ℚ) + 1/2 ≤ y) :
    k + 1 ≤ rhe y := by
  by_cases hy : y < (k : ℚ) + 1
  · have hfl : ⌊y⌋ = k := by
      rw [Int.floor_eq_iff]
      constructor
      · linarith
      · push_cast; linarith
    unfold rhe
    rw [hfl]
    have hr : ¬ (y - (k : ℚ) < 1/2) := by push_neg; linarith
    by_cases hb : 1/2 < y - (k : ℚ)
    · rw [if_neg hr, if_pos hb]
    · rw [if_neg hr, if_neg hb, if_neg hk]
  · push_neg at hy
    have hfl : k + 1 ≤ ⌊y⌋ := by
      rw [Int.le_floor]; push_cast; linarith
    rcases rhe_cases y with hc | hc <;> rw [hc] <;> omega

theorem round3_nonneg (y : ℚ) (h : 0 ≤ y) : 0 ≤ round3 y := by
  have h1 := rhe_ge (1000 * y)
  have h2 : (0 : ℤ) ≤ rhe (1000 * y) := by
    by_contra hneg
    push_neg at hneg
    have h3 : rhe (1000 * y) ≤ -1 := by omega
    have h5 : (rhe (1000 * y) : ℚ) ≤ -1 := by exact_mod_cast h3
    linarith
  have h4 : (0 : ℚ) ≤ (rhe (1000 * y) : ℚ) := by exact_mod_cast h2
  unfold round3
  positivity

theorem round3_le_one (y : ℚ) (h : y ≤ 1) : round3 y ≤ 1 := by
  have h1 := rhe_le (1000 * y)
  have h2 : rhe (1000 * y) ≤ 1000 := by
    by_contra hgt
    push_neg at hgt
    have h3 : (1001 : ℚ) ≤ (rhe (1000 * y) : ℚ) := by exact_mod_cast hgt
    linarith
  have h4 : (rhe (1000 * y) : ℚ) ≤ 1000 := by exact_mod_cast h2
  unfold round3
  linarith

theorem shapeRegularityOf_mem (g : Geom) :
    0 ≤ shapeRegularityOf g ∧ shapeRegularityOf g ≤ 1 := by
  unfold shapeRegularityOf
  split_ifs with h1 h2
  · norm_num
  · norm_num
  · constructor
    · exact le_min (le_max_right _ _) (by norm_num)
    · exact min_le_right _ _

theorem sizeReasonability_mem (a mn mx : ℚ) (ha : 0 ≤ a) :
    0 ≤ sizeReasonability a mn mx ∧ sizeReasonability a mn mx ≤ 1 := by
  unfold sizeReasonability
  split_ifs with h1 h2
  · norm_num
  · refine ⟨le_max_left _ _, ?_⟩
    have hl : 0 < mn * (1/2) := lt_of_le_of_lt ha h2
    have hd : a / (mn * (1/2)) < 1 := (div_lt_one hl).mpr h2
    exact max_le (by norm_num) (le_of_lt hd)
  · push_neg at h1 h2
    have hu : mx * (3/2) < a := by
      rcases lt_or_le (mx * (3/2)) a with h | h
      · exact h
      · exact absurd (h1 h2) (by push_neg; exact h)
    refine ⟨le_max_left _ _, ?_⟩
    rcases eq_or_lt_of_le ha with h0 | h0
    · rw [← h0, div_zero]
      norm_num
    · have hd : mx * (3/2) / a < 1 := (div_lt_one h0).mpr hu
      exact max_le (by norm_num) (le_of_lt hd)

theorem areaMatchFactor_mem (p : ParcelRow)
    (hm : ∀ m, p.areaMismatch = some m → 0 ≤ m) :
    0 ≤ areaMatchFactor p ∧ areaMatchFactor p ≤ 1 := by
  unfold areaMatchFactor
  rcases hp : p.areaMismatch with _ | m
  · norm_num
  · have hm0 := hm m hp
    exact ⟨le_max_left _ _, max_le (by norm_num) (by linarith)⟩

theorem rorLinkFactor_mem (p : ParcelRow) :
    0 ≤ rorLinkFactor p ∧ rorLinkFactor p ≤ 1 := by
  unfold rorLinkFactor
  rcases p.rorSurveyNo with _ | s <;> norm_num

theorem clarityFactor_mem (p : ParcelRow)
    (he : ∀ e, effEdgeScore p = some e → 0 ≤ e ∧ e ≤ 1) :
    0 ≤ clarityFactor p ∧ clarityFactor p ≤ 1 := by
  unfold clarityFactor
  rcases hp : effEdgeScore p with _ | e
  · norm_num
  · exact he e hp

theorem countFactor_mem (vs : VillageStats) :
    0 ≤ countFactor vs ∧ countFactor vs ≤ 1 := by
  unfold countFactor
  split_ifs with hc
  · have hmaxpos : (0 : ℚ) < (vs.expectedCount : ℚ) ⊔ (vs.actualCount : ℚ) := by
      have h0 : (0 : ℚ) < (vs.expectedCount : ℚ) := by exact_mod_cast hc.1
      exact lt_of_lt_of_le h0 (le_max_left _ _)
    constructor
    · positivity
    · rw [div_le_one hmaxpos]
      exact min_le_max
  · norm_num

theorem gArea_nonneg (g : Geom) : 0 ≤ gArea g := by
  unfold gArea
  exact Nat.cast_nonneg _

theorem weightedSum_default_mem (f : ConfidenceFactors)
    (h1 : 0 ≤ f.areaMatch ∧ f.areaMatch ≤ 1)
    (h2 : 0 ≤ f.hasRorLink ∧ f.hasRorLink ≤ 1)
    (h3 : 0 ≤ f.boundaryClarity ∧ f.boundaryClarity ≤ 1)
    (h4 : 0 ≤ f.shapeRegularity ∧ f.shapeRegularity ≤ 1)
    (h5 : 0 ≤ f.countConsistency ∧ f.countConsistency ≤ 1)
    (h6 : 0 ≤ f.sizeReasonable ∧ f.sizeReasonable ≤ 1) :
    0 ≤ weightedSum defaultWeights f ∧ weightedSum defaultWeights f ≤ 1 := by
  unfold weightedSum defaultWeights
  obtain ⟨h1a, h1b⟩ := h1
  obtain ⟨h2a, h2b⟩ := h2
  obtain ⟨h3a, h3b⟩ := h3
  obtain ⟨h4a, h4b⟩ := h4
  obtain ⟨h5a, h5b⟩ := h5
  obtain ⟨h6a, h6b⟩ := h6
  constructor
  · nlinarith
  · nlinarith

theorem finishScore_fst (sc : Scorer) (raw : ℚ) (expl : List ExplEntry) :
    (finishScore sc raw expl).1 = round3 raw := by
  unfold finishScore
  split_ifs <;> rfl

theorem scoreParcel_confidence (sc : Scorer) (p : ParcelRow) (vs : VillageStats) :
    (scoreParcel sc p vs).confidenceScore = round3 (rawScore sc p vs) := by
  unfold scoreParcel
  exact finishScore_fst _ _ _

theorem rawScore_default_mem (p : ParcelRow) (vs : VillageStats)
    (he : ∀ e, effEdgeScore p = some e → 0 ≤ e ∧ e ≤ 1)
    (hm : ∀ m, p.areaMismatch = some m → 0 ≤ m) :
    0 ≤ rawScore defaultScorer p vs ∧ rawScore defaultScorer p vs ≤ 1 := by
  have hw := weightedSum_default_mem (computeFactors p vs)
    (areaMatchFactor_mem p hm) (rorLinkFactor_mem p) (clarityFactor_mem p he)
    (shapeRegularityOf_mem p.geometry) (countFactor_mem vs)
    (sizeReasonability_mem _ _ _ (gArea_nonneg p.geometry))
  exact hw

theorem finishScore_routing_iff (sc : Scorer) (raw : ℚ) (expl : List ExplEntry)
    (hth : sc.desktopThreshold ≤ sc.autoThreshold) :
    ((finishScore sc raw expl).2.1 = ReviewStatus.AUTO_APPROVE ↔
      sc.autoThreshold ≤ (finishScore sc raw expl).1) ∧
    ((finishScore sc raw expl).2.1 = ReviewStatus.DESKTOP_REVIEW ↔
      sc.desktopThreshold ≤ (finishScore sc raw expl).1 ∧
        (finishScore sc raw expl).1 < sc.autoThreshold) ∧
    ((finishScore sc raw expl).2.1 = ReviewStatus.FIELD_VERIFICATION ↔
      (finishScore sc raw expl).1 < sc.desktopThreshold) ∧
    (finishScore sc raw expl).2.2.head? =
      some (ExplEntry.rationale (finishScore sc raw expl).2.1) := by
  unfold finishScore
  split_ifs with h1 h2
  · refine ⟨iff_of_true rfl h1, ?_, ?_, rfl⟩
    · refine iff_of_false (by decide) ?_
      rintro ⟨_, hlt⟩
      exact absurd h1 (not_le.mpr hlt)
    · exact iff_of_false (by decide) (not_lt.mpr (le_trans hth h1))
  · refine ⟨iff_of_false (by decide) h1, iff_of_true rfl ⟨h2, lt_of_not_le h1⟩, ?_, rfl⟩
    exact iff_of_false (by decide) (not_lt.mpr h2)
  · exact ⟨iff_of_false (by decide) h1, iff_of_false (by decide) (fun h => absurd h.1 h2),
      iff_of_true rfl (lt_of_not_le h2), rfl⟩

/-- C3 (counterexample): the claim "each of the six factors — including
boundary_clarity taken from an externally supplied edge_score of arbitrary
value — is clamped to [0, 1]" is false: an edge score of 10 is stored
unclamped as the boundary-clarity factor, and the returned confidence score
is 1.875, outside [0, 1]. -/
theorem claimC3_cex :
    (scoreParcel defaultScorer hotParcel zeroStats).factors.boundaryClarity = 10 ∧
    (scoreParcel defaultScorer hotParcel zeroStats).confidenceScore = 15/8 ∧
    ¬ (scoreParcel defaultScorer hotParcel zeroStats).confidenceScore ≤ 1 := by
  with_unfolding_all decide

/-- C3 (amended): `score_parcel` clamps every factor except
boundary_clarity (the external edge score is passed through unchanged) and
area_match (clamped only from below), so the returned confidence score lies
in [0, 1] for the default weights whenever the supplied edge score lies in
[0, 1] (or is absent) and any supplied area mismatch is nonnegative. -/
theorem claimC3_amended (p : ParcelRow) (vs : VillageStats)
    (he : ∀ e, effEdgeScore p = some e → 0 ≤ e ∧ e ≤ 1)
    (hm : ∀ m, p.areaMismatch = some m → 0 ≤ m) :
    0 ≤ (scoreParcel defaultScorer p vs).confidenceScore ∧
      (scoreParcel defaultScorer p vs).confidenceScore ≤ 1 := by
  have hr := rawScore_default_mem p vs he hm
  rw [scoreParcel_confidence]
  exact ⟨round3_nonneg _ hr.1, round3_le_one _ hr.2⟩

/-- C3 (witness): the amended bound applied to a concrete parcel whose edge
score is 199/300 and whose area mismatch is 0. -/
theorem claimC3_witness :
    0 ≤ (scoreParcel defaultScorer tieParcel unitStats).confidenceScore ∧
      (scoreParcel defaultScorer tieParcel unitStats).confidenceScore ≤ 1 :=
  claimC3_amended tieParcel unitStats
    (fun e hEq => by
      have h1 : e = 199/300 := by
        have h2 : effEdgeScore tieParcel = some (199/300 : ℚ) := rfl
        rw [h2] at hEq
        exact (Option.some_inj.mp hEq).symm
      rw [h1]
      norm_num)
    (fun m hEq => by
      have h1 : m = 0 := by
        have h2 : tieParcel.areaMismatch = some (0 : ℚ) := rfl
        rw [h2] at hEq
        exact (Option.some_inj.mp hEq).symm
      rw [h1])

/-- C7 (counterexample): the claim "the stored factor weights sum to exactly
1 after construction" is false: a weight dictionary summing to 1.005 is
within the constructor's 0.01 tolerance and is stored unchanged. -/
theorem claimC7_cex :
    mkScorer (some offWeights) (17/20) (3/5) =
      some { weights := offWeights, autoThreshold := 17/20, desktopThreshold := 3/5 } ∧
    sumW offWeights = 201/200 ∧ sumW offWeights ≠ 1 := by
  with_unfolding_all decide

/-- C7 (amended): after construction the stored weights sum to within 0.01
of 1; a configured sum off by more than 0.01 is divided through (silently,
with no warning) and then sums to exactly 1; construction succeeds whenever
the configured sum is nonzero (a zero sum is a `ZeroDivisionError`). -/
theorem claimC7_amended (w : FactorWeights) (auto desktop : ℚ) (hz : sumW w ≠ 0) :
    ∃ s, mkScorer (some w) auto desktop = some s ∧
      |sumW s.weights - 1| ≤ 1/100 ∧
      (1/100 < |sumW w - 1| → sumW s.weights = 1) := by
  have hnorm : sumW (normalizeW w (sumW w)) = 1 := by
    unfold sumW normalizeW at *
    rw [div_add_div_same, div_add_div_same, div_add_div_same, div_add_div_same,
      div_add_div_same]
    exact div_self hz
  unfold mkScorer
  simp only [Option.getD_some]
  by_cases h : 1/100 < |sumW w - 1|
  · rw [if_pos h, if_neg hz]
    exact ⟨_, rfl, by rw [hnorm]; norm_num, fun _ => hnorm⟩
  · rw [if_neg h]
    exact ⟨_, rfl, le_of_not_lt h, fun hcon => absurd hcon h⟩

/-- C7 (witness): the amended statement applied to the all-ones weight
dictionary, whose sum 6 is normalized to exactly 1. -/
theorem claimC7_witness :
    ∃ s, mkScorer (some onesWeights) (17/20) (3/5) = some s ∧
      |sumW s.weights - 1| ≤ 1/100 ∧
      (1/100 < |sumW onesWeights - 1| → sumW s.weights = 1) :=
  claimC7_amended onesWeights (17/20) (3/5) (by with_unfolding_all decide)

/-- C8: with the default scorer, the routing is AUTO_APPROVE exactly when
the confidence score is at least 0.85, DESKTOP_REVIEW exactly when it is in
[0.60, 0.85), and FIELD_VERIFICATION exactly when it is below 0.60; the
first explanation entry states the routing rationale; and the all-ones
factor vector yields a weighted sum of 1, score 1 and routing AUTO_APPROVE. -/
theorem claimC8_routing_thresholds :
    (∀ (p : ParcelRow) (vs : VillageStats),
      ((scoreParcel defaultScorer p vs).routing = ReviewStatus.AUTO_APPROVE ↔
        17/20 ≤ (scoreParcel defaultScorer p vs).confidenceScore) ∧
      ((scoreParcel defaultScorer p vs).routing = ReviewStatus.DESKTOP_REVIEW ↔
        3/5 ≤ (scoreParcel defaultScorer p vs).confidenceScore ∧
          (scoreParcel defaultScorer p vs).confidenceScore < 17/20) ∧
      ((scoreParcel defaultScorer p vs).routing = ReviewStatus.FIELD_VERIFICATION ↔
        (scoreParcel defaultScorer p vs).confidenceScore < 3/5) ∧
      (scoreParcel defaultScorer p vs).explanation.head? =
        some (ExplEntry.rationale (scoreParcel defaultScorer p vs).routing)) ∧
    weightedSum defaultWeights allOneFactors = 1 ∧
    (finishScore defaultScorer (weightedSum defaultWeights allOneFactors) []).1 = 1 ∧
    (finishScore defaultScorer (weightedSum defaultWeights allOneFactors) []).2.1 =
      ReviewStatus.AUTO_APPROVE := by
  refine ⟨?_, ?_, ?_, ?_⟩
  · intro p vs
    exact finishScore_routing_iff defaultScorer (rawScore defaultScorer p vs)
      (factorExpl p vs) (by norm_num [defaultScorer])
  · with_unfolding_all decide
  · with_unfolding_all decide
  · with_unfolding_all decide

/-- C9: the Evaluator's IoU satisfies `IoU(X, X) = 1` for every valid
non-empty polygon `X`, and `IoU(X, Y) = 0` for every disjoint pair. -/
theorem claimC9_iou :
    (∀ X : Geom, X.Nonempty → computeIoU X X = 1) ∧
    (∀ X Y : Geom, ¬ gIntersects X Y → computeIoU X Y = 0) := by
  constructor
  · intro X hX
    unfold computeIoU
    rw [Finset.inter_self, Finset.union_self]
    have hc : gArea X ≠ 0 := by
      unfold gArea
      have h0 := Finset.card_pos.mpr hX
      exact_mod_cast Nat.pos_iff_ne_zero.mp h0
    rw [if_neg hc]
    exact div_self hc
  · intro X Y hd
    have hinter : X ∩ Y = ∅ := by
      by_contra hne
      obtain ⟨p, hp⟩ := Finset.nonempty_iff_ne_empty.mpr hne
      rw [Finset.mem_inter] at hp
      exact hd ⟨p, hp.1, p, hp.2, by unfold cellsMeet; omega⟩
    unfold computeIoU
    rw [hinter]
    by_cases hu : gArea (X ∪ Y) = 0
    · rw [if_pos hu]
    · rw [if_neg hu]
      simp [gArea]

/-- C9 (witness): the identities evaluated at a concrete square and a
concrete disjoint pair. -/
theorem claimC9_witness :
    computeIoU (rectCells 0 0 2 2) (rectCells 0 0 2 2) = 1 ∧
    computeIoU (rectCells 0 0 2 2) (rectCells 5 5 1 1) = 0 :=
  ⟨claimC9_iou.1 (rectCells 0 0 2 2) (by with_unfolding_all decide),
   claimC9_iou.2 (rectCells 0 0 2 2) (rectCells 5 5 1 1) (by with_unfolding_all decide)⟩

/-- C10: `score_parcel` rounds the raw weighted sum to three decimal places
(half-to-even) before the threshold comparison, so the returned confidence
score is an integer multiple of 0.001, and with the default thresholds a
raw sum within 0.0005 below 0.85 (resp. 0.60) is routed into the higher
tier. -/
theorem claimC10_rounding :
    (∀ (sc : Scorer) (p : ParcelRow) (vs : VillageStats),
      (scoreParcel sc p vs).confidenceScore = round3 (rawScore sc p vs) ∧
      ∃ k : ℤ, (scoreParcel sc p vs).confidenceScore = (k : ℚ) / 1000) ∧
    (∀ (p : ParcelRow) (vs : VillageStats),
      17/20 - 1/2000 ≤ rawScore defaultScorer p vs →
        (scoreParcel defaultScorer p vs).routing = ReviewStatus.AUTO_APPROVE) ∧
    (∀ (p : ParcelRow) (vs : VillageStats),
      3/5 - 1/2000 ≤ rawScore defaultScorer p vs →
        (scoreParcel defaultScorer p vs).routing ≠ ReviewStatus.FIELD_VERIFICATION) := by
  refine ⟨?_, ?_, ?_⟩
  · intro sc p vs
    refine ⟨scoreParcel_confidence sc p vs, ⟨rhe (1000 * rawScore sc p vs), ?_⟩⟩
    rw [scoreParcel_confidence]
    rfl
  · intro p vs h
    have h849 : ((849 : ℤ) : ℚ) + 1/2 ≤ 1000 * rawScore defaultScorer p vs := by
      push_cast
      linarith
    have hrhe : (849 : ℤ) + 1 ≤ rhe (1000 * rawScore defaultScorer p vs) :=
      rhe_ge_succ_of_odd 849 _ (by decide) h849
    have hs : (17 : ℚ)/20 ≤ round3 (rawScore defaultScorer p vs) := by
      unfold round3
      have hc : ((850 : ℤ) : ℚ) ≤ (rhe (1000 * rawScore defaultScorer p vs) : ℚ) := by
        exact_mod_cast hrhe
      push_cast at hc
      linarith
    have hiff := (finishScore_routing_iff defaultScorer (rawScore defaultScorer p vs)
      (factorExpl p vs) (by norm_num [defaultScorer])).1
    rw [finishScore_fst] at hiff
    exact hiff.mpr hs
  · intro p vs h
    have h599 : ((599 : ℤ) : ℚ) + 1/2 ≤ 1000 * rawScore defaultScorer p vs := by
      push_cast
      linarith
    have hrhe : (599 : ℤ) + 1 ≤ rhe (1000 * rawScore defaultScorer p vs) :=
      rhe_ge_succ_of_odd 599 _ (by decide) h599
    have hs : (3 : ℚ)/5 ≤ round3 (rawScore defaultScorer p vs) := by
      unfold round3
      have hc : ((600 : ℤ) : ℚ) ≤ (rhe (1000 * rawScore defaultScorer p vs) : ℚ) := by
        exact_mod_cast hrhe
      push_cast at hc
      linarith
    have hiff := (finishScore_routing_iff defaultScorer (rawScore defaultScorer p vs)
      (factorExpl p vs) (by norm_num [defaultScorer])).2.2.1
    rw [finishScore_fst] at hiff
    intro hf
    exact absurd (hiff.mp hf) (not_lt.mpr hs)

/-- C10 (witness): a parcel with raw weighted sum exactly 0.8495 is rounded
up to 0.85 and routed AUTO_APPROVE (in particular not FIELD_VERIFICATION),
and its returned score is a multiple of 0.001. -/
theorem claimC10_witness :
    (scoreParcel defaultScorer tieParcel unitStats).routing = ReviewStatus.AUTO_APPROVE ∧
    (scoreParcel defaultScorer tieParcel unitStats).routing ≠ ReviewStatus.FIELD_VERIFICATION ∧
    (∃ k : ℤ, (scoreParcel defaultScorer tieParcel unitStats).confidenceScore = (k : ℚ) / 1000) :=
  ⟨claimC10_rounding.2.1 tieParcel unitStats (by with_unfolding_all decide),
   claimC10_rounding.2.2 tieParcel unitStats (by with_unfolding_all decide),
   (claimC10_rounding.1 defaultScorer tieParcel unitStats).2⟩

theorem injections_length {m : ℕ} {avail : List ℕ} {σ : List ℕ}
    (h : σ ∈ injections m avail) : σ.length = m := by
  induction m generalizing avail σ with
  | zero =>
      unfold injections at h
      simp at h
      rw [h]
      rfl
  | succ k ih =>
      unfold injections at h
      rw [List.mem_flatMap] at h
      obtain ⟨x, _, hx⟩ := h
      rw [List.mem_map] at hx
      obtain ⟨τ, hτ, hcons⟩ := hx
      rw [← hcons, List.length_cons, ih hτ]

theorem injections_subset {m : ℕ} {avail : List ℕ} {σ : List ℕ}
    (h : σ ∈ injections m avail) : ∀ x ∈ σ, x ∈ avail := by
  induction m generalizing avail σ with
  | zero =>
      unfold injections at h
      simp at h
      rw [h]
      intro x hx
      exact absurd hx (List.not_mem_nil x)
  | succ k ih =>
      unfold injections at h
      rw [List.mem_flatMap] at h
      obtain ⟨y, hy, hx⟩ := h
      rw [List.mem_map] at hx
      obtain ⟨τ, hτ, hcons⟩ := hx
      intro x hx
      rw [← hcons] at hx
      rcases List.mem_cons.mp hx with h1 | h1
      · rw [h1]; exact hy
      · exact List.erase_subset _ _ (ih hτ x h1)

theorem injections_ne_nil {m : ℕ} {avail : List ℕ} (h : m ≤ avail.length) :
    injections m avail ≠ [] := by
  induction m generalizing avail with
  | zero =>
      unfold injections
      simp
  | succ k ih =>
      unfold injections
      obtain ⟨y, t, hyt⟩ : ∃ y t, avail = y :: t := by
        cases avail with
        | nil => simp at h
        | cons a t => exact ⟨a, t, rfl⟩
      intro hnil
      rw [List.flatMap_eq_nil_iff] at hnil
      have hy : y ∈ avail := by rw [hyt]; exact List.mem_cons_self _ _
      have h1 := hnil y hy
      rw [List.map_eq_nil_iff] at h1
      have h2 : k ≤ (avail.erase y).length := by
        rw [List.length_erase_of_mem hy]
        rw [hyt] at h ⊢
        simpa using Nat.le_of_succ_le_succ h
      exact ih h2 h1

theorem foldl_min_mem (cost : ℕ → ℕ → ℚ) (h : List ℕ) (t : List (List ℕ)) :
    t.foldl (fun best σ => if totalCost cost σ < totalCost cost best then σ else best) h ∈
      h :: t := by
  induction t generalizing h with
  | nil => exact List.mem_singleton.mpr rfl
  | cons σ t ih =>
      show List.foldl _ (if totalCost cost σ < totalCost cost h then σ else h) t ∈ _
      rcases List.mem_cons.mp
          (ih (if totalCost cost σ < totalCost cost h then σ else h)) with h1 | h1
      · rw [h1]
        split_ifs with hc
        · exact List.mem_cons_of_mem _ (List.mem_cons_self _ _)
        · exact List.mem_cons_self _ _
      · exact List.mem_cons_of_mem _ (List.mem_cons_of_mem _ h1)

theorem firstMinCost_mem {cost : ℕ → ℕ → ℚ} {l : List (List ℕ)} {σ : List ℕ}
    (h : firstMinCost cost l = some σ) : σ ∈ l := by
  cases l with
  | nil => exact absurd h (by unfold firstMinCost; simp)
  | cons hd t =>
      unfold firstMinCost at h
      rw [Option.some_inj] at h
      rw [← h]
      exact foldl_min_mem cost hd t

theorem minAssignment_pairs {n m : ℕ} (hmn : m ≤ n) (cost : ℕ → ℕ → ℚ) :
    ∀ j < m, ∃ i < n, (i, j) ∈ minAssignment n m cost := by
  intro j hj
  unfold minAssignment
  rcases hfm : firstMinCost cost (injections m (List.range n)) with _ | σ
  · exfalso
    have hne := @injections_ne_nil m (List.range n) (by simpa using hmn)
    cases hinj : injections m (List.range n) with
    | nil => exact hne hinj
    | cons hd t =>
        rw [hinj] at hfm
        exact absurd hfm (by unfold firstMinCost; simp)
  · have hσmem := firstMinCost_mem hfm
    have hlen : σ.length = m := injections_length hσmem
    have hjlen : j < σ.length := by rw [hlen]; exact hj
    refine ⟨σ.get ⟨j, hjlen⟩, ?_, ?_⟩
    · have hmem : σ.get ⟨j, hjlen⟩ ∈ σ := σ.get_mem j hjlen
      have hsub := injections_subset hσmem _ hmem
      simpa using hsub
    · have hjlen2 : j < σ.enum.length := by simpa using hjlen
      have hget : σ.enum.get ⟨j, hjlen2⟩ = (j, σ.get ⟨j, hjlen⟩) := by
        simp [List.get_eq_getElem, List.getElem_enum]
      rw [List.mem_map]
      refine ⟨(j, σ.get ⟨j, hjlen⟩), ?_, rfl⟩
      rw [← hget]
      exact σ.enum.get_mem j hjlen2

/-- C1 (counterexample): the claim "every assignment pair whose cost is at
least reject_threshold (default 2.0) is discarded and both sides left
unmatched" is false for `RORConstraintEngine.match_segments_to_ror`: a
segment of area 50 against a record of expected area 10 has cost 4 ≥ 2, yet
the pair is applied and both sides are matched; and in the
{100, 100, 100} vs {100, 100, 5000} scenario the 5000 record is matched
(cost 0.98) rather than left unmatched. -/
theorem claimC1_cex :
    (matchSegmentsToRor [seg50] [⟨"R", 10⟩]).1 =
      [{ rorSurveyNo := some "R", rorAreaSqm := some 10, areaMismatch := some 4,
         isMatched := true }] ∧
    (2 : ℚ) ≤ 4 ∧
    (matchSegmentsToRor [seg100, seg100, seg100] rorScenario).1.map
        SegRorInfo.rorSurveyNo = [some "R1", some "R2", some "R3"] ∧
    (matchSegmentsToRor [seg100, seg100, seg100] rorScenario).1.map
        SegRorInfo.isMatched = [true, true, true] ∧
    (matchSegmentsToRor [seg100, seg100, seg100] rorScenario).1.map
        SegRorInfo.areaMismatch = [some 0, some 0, some (49/50)] := by
  refine ⟨?_, by norm_num, ?_, ?_⟩
  · with_unfolding_all decide
  · with_unfolding_all decide
  · with_unfolding_all decide

/-- C1 (amended): `match_segments_to_ror` applies every pair returned by the
assignment solver with no cost-based rejection, so whenever there are at
least as many segments as records every record is assigned to some segment
and that segment's row is marked matched, regardless of cost; in the
{100, 100, 100} vs {100, 100, 5000} scenario all three records are matched,
the 5000 record at cost 0.98 and the other two at cost 0. -/
theorem claimC1_amended :
    (∀ (segs : List Geom) (rors : List RorRecord), rors.length ≤ segs.length →
      ∀ j < rors.length, ∃ i < segs.length,
        (i, j) ∈ rorAssignPairs segs rors ∧
        ∃ info, (matchSegmentsToRor segs rors).1.get? i = some info ∧
          info.isMatched = true) ∧
    (matchSegmentsToRor [seg100, seg100, seg100] rorScenario).1.map
        SegRorInfo.areaMismatch = [some 0, some 0, some (49/50)] := by
  constructor
  · intro segs rors hlen j hj
    obtain ⟨i, hi, hmem⟩ := minAssignment_pairs hlen (rorCost segs rors) j hj
    have hmem' : (i, j) ∈ rorAssignPairs segs rors := by
      unfold rorAssignPairs
      rw [if_pos hlen]
      exact hmem
    refine ⟨i, hi, hmem', ?_⟩
    have happ : (i, j) ∈ rorApplied segs rors := by
      unfold rorApplied
      rw [List.mem_filter]
      exact ⟨hmem', by simpa using ⟨hi, hj⟩⟩
    have hfind : ((rorApplied segs rors).find? fun p => p.1 = i).isSome := by
      rw [List.find?_isSome]
      exact ⟨(i, j), happ, by simp⟩
    have hget : (matchSegmentsToRor segs rors).1.get? i =
        some ((fun i =>
          match (rorApplied segs rors).find? fun p => p.1 = i with
          | some p =>
              { rorSurveyNo := some (rors.getD p.2 ⟨"", 0⟩).surveyNo,
                rorAreaSqm := some (rors.getD p.2 ⟨"", 0⟩).expectedArea,
                areaMismatch := some (rorCost segs rors p.1 p.2), isMatched := true }
          | none => ({ rorSurveyNo := none, rorAreaSqm := none, areaMismatch := none,
                       isMatched := false } : SegRorInfo)) i) := by
      show (rorInfos segs rors).get? i = _
      unfold rorInfos
      rw [List.get?_map, List.get?_range hi]
      rfl
    rcases hp : (rorApplied segs rors).find? fun p => p.1 = i with _ | p
    · rw [hp] at hfind
      exact absurd hfind (by simp)
    · refine ⟨_, hget, ?_⟩
      simp only [hp]
  · with_unfolding_all decide

/-- C1 (witness): the amended statement applied to the scenario input, at
the 5000 record (index 2): it is assigned and marked matched. -/
theorem claimC1_witness :
    ∃ i < ([seg100, seg100, seg100] : List Geom).length,
      (i, 2) ∈ rorAssignPairs [seg100, seg100, seg100] rorScenario ∧
      ∃ info, (matchSegmentsToRor [seg100, seg100, seg100] rorScenario).1.get? i =
          some info ∧ info.isMatched = true :=
  claimC1_amended.1 [seg100, seg100, seg100] rorScenario (by decide) 2 (by decide)

theorem inter_empty_of_not_intersects (a b : Geom) (h : ¬ gIntersects a b) : a ∩ b = ∅ := by
  by_contra hne
  obtain ⟨p, hp⟩ := Finset.nonempty_iff_ne_empty.mpr hne
  rw [Finset.mem_inter] at hp
  exact h ⟨p, hp.1, p, hp.2, by unfold cellsMeet; omega⟩

theorem fixOverlaps_pair (t : ℚ) (a b : Geom) :
    fixOverlapsFn t [(0, a), (1, b)] =
      if gIntersects a b then
        if t < gArea (a ∩ b) then
          if gArea b ≤ gArea a then
            if b \ (a ∩ b) ≠ ∅ then [(0, a), (1, b \ (a ∩ b))] else [(0, a), (1, b)]
          else
            if a \ (a ∩ b) ≠ ∅ then [(0, a \ (a ∩ b)), (1, b)] else [(0, a), (1, b)]
        else [(0, a), (1, b)]
      else [(0, a), (1, b)] := by
  unfold fixOverlapsFn overlapStep
  simp only [List.foldl_cons, List.foldl_nil]
  norm_num [locG, updG, List.lookup]
  split_ifs <;> simp_all [locG, updG, List.lookup]

theorem inter_sdiff_right_empty (a b : Geom) : a ∩ (b \ (a ∩ b)) = ∅ := by
  ext x
  simp only [Finset.mem_inter, Finset.mem_sdiff, Finset.not_mem_empty, iff_false]
  tauto

theorem sdiff_left_inter_empty (a b : Geom) : (a \ (a ∩ b)) ∩ b = ∅ := by
  ext x
  simp only [Finset.mem_inter, Finset.mem_sdiff, Finset.not_mem_empty, iff_false]
  tauto

/-- C2 (counterexample): the claim "after fix_topology with all fix flags
enabled no two output parcels overlap by more than overlap_threshold, even
when one parcel is entirely contained in another" is false: for a 12-cell
parcel contained in a 16-cell parcel, subtracting the intersection would
empty the smaller parcel, the guarded update is skipped, and the output
still contains both parcels with overlap area 12 > 1. -/
theorem claimC2_cex :
    (fixTopology defaultFixer [(0, outerG), (1, innerG)] true true true true).map Prod.snd =
      [outerG, innerG] ∧
    innerG ⊆ outerG ∧
    defaultFixer.overlapThreshold < gArea (outerG ∩ innerG) := by
  refine ⟨?_, ?_, ?_⟩
  · with_unfolding_all decide
  · with_unfolding_all decide
  · with_unfolding_all decide

/-- C2 (amended): for a pair of parcels, the overlap-fixing step either
leaves their pairwise intersection at no more than overlap_threshold, or
leaves the overlap in place because one parcel is contained in the other
(subtracting the intersection would produce an empty geometry, and the
guarded assignment is skipped). -/
theorem claimC2_amended (t : ℚ) (ht : 0 ≤ t) (a b : Geom) :
    gArea (locG (fixOverlapsFn t [(0, a), (1, b)]) 0 ∩
        locG (fixOverlapsFn t [(0, a), (1, b)]) 1) ≤ t ∨
      b ⊆ a ∨ a ⊆ b := by
  rw [fixOverlaps_pair]
  split_ifs with h1 h2 h3 h4 h5
  · left
    show gArea (locG [(0, a), (1, b \ (a ∩ b))] 0 ∩ locG [(0, a), (1, b \ (a ∩ b))] 1) ≤ t
    have hl0 : locG [(0, a), (1, b \ (a ∩ b))] 0 = a := by simp [locG, List.lookup]
    have hl1 : locG [(0, a), (1, b \ (a ∩ b))] 1 = b \ (a ∩ b) := by simp [locG, List.lookup]
    rw [hl0, hl1, inter_sdiff_right_empty]
    simpa [gArea] using ht
  · right
    left
    rw [not_ne_iff, Finset.sdiff_eq_empty_iff_subset] at h4
    exact h4.trans Finset.inter_subset_left
  · left
    have hl0 : locG [(0, a \ (a ∩ b)), (1, b)] 0 = a \ (a ∩ b) := by simp [locG, List.lookup]
    have hl1 : locG [(0, a \ (a ∩ b)), (1, b)] 1 = b := by simp [locG, List.lookup]
    rw [hl0, hl1, sdiff_left_inter_empty]
    simpa [gArea] using ht
  · right
    right
    rw [not_ne_iff, Finset.sdiff_eq_empty_iff_subset] at h5
    exact h5.trans Finset.inter_subset_right
  · left
    have hl0 : locG [(0, a), (1, b)] 0 = a := by simp [locG, List.lookup]
    have hl1 : locG [(0, a), (1, b)] 1 = b := by simp [locG, List.lookup]
    rw [hl0, hl1]
    exact le_of_not_lt h2
  · left
    have hl0 : locG [(0, a), (1, b)] 0 = a := by simp [locG, List.lookup]
    have hl1 : locG [(0, a), (1, b)] 1 = b := by simp [locG, List.lookup]
    rw [hl0, hl1, inter_empty_of_not_intersects a b h1]
    simpa [gArea] using ht

/-- C2 (witness): the dichotomy applied to the contained pair: the
containment branch holds. -/
theorem claimC2_witness :
    gArea (locG (fixOverlapsFn 1 [(0, outerG), (1, innerG)]) 0 ∩
        locG (fixOverlapsFn 1 [(0, outerG), (1, innerG)]) 1) ≤ 1 ∨
      innerG ⊆ outerG ∨ outerG ⊆ innerG :=
  claimC2_amended 1 (by norm_num) outerG innerG

/-- C5 (counterexample): the claim "if the subtraction fragments the smaller
parcel into multiple parts, only the largest fragment is kept" is false for
the overlap fixer: subtracting the 2-cell intersection from the 5-cell row
leaves a two-part geometry of area 3, and the fixer stores the whole
two-part difference, not the 2-cell largest fragment. -/
theorem claimC5_cex :
    fixOverlapsFn 1 [(0, fragA), (1, fragB)] = [(0, fragA), (1, fragB \ (fragA ∩ fragB))] ∧
    (componentsList (fragB \ (fragA ∩ fragB))).length = 2 ∧
    gArea (fragB \ (fragA ∩ fragB)) = 3 ∧
    gArea (largestComp (fragB \ (fragA ∩ fragB))) = 2 ∧
    fragB \ (fragA ∩ fragB) ≠ largestComp (fragB \ (fragA ∩ fragB)) := by
  refine ⟨?_, ?_, ?_, ?_, ?_⟩ <;> with_unfolding_all decide

/-- C5 (amended): for an intersecting pair whose intersection area exceeds
overlap_threshold, the fixer subtracts the whole intersection from the
smaller-area parcel (keeping every fragment of the difference — no
largest-fragment selection) and leaves the larger parcel unchanged; the
smaller parcel's area shrinks by exactly the intersection area. -/
theorem claimC5_amended (t : ℚ) (a b : Geom) (hba : gArea b ≤ gArea a)
    (hst : t < gArea (a ∩ b)) (hne : b \ (a ∩ b) ≠ ∅) :
    fixOverlapsFn t [(0, a), (1, b)] = [(0, a), (1, b \ (a ∩ b))] ∧
    gArea (b \ (a ∩ b)) = gArea b - gArea (a ∩ b) := by
  constructor
  · rw [fixOverlaps_pair]
    by_cases hI : gIntersects a b
    · rw [if_pos hI, if_pos hst, if_pos hba, if_pos hne]
    · rw [if_neg hI, inter_empty_of_not_intersects a b hI, Finset.sdiff_empty]
  · have hsub : a ∩ b ⊆ b := Finset.inter_subset_right
    unfold gArea
    rw [Finset.card_sdiff hsub]
    have hle : (a ∩ b).card ≤ b.card := Finset.card_le_card hsub
    push_cast [hle]
    ring

/-- C5 (witness): two rectangles overlapping by 30 percent of the smaller
one (areas 18 and 10, intersection 3): after the fix the larger keeps its
footprint and the smaller shrinks by exactly the intersection area, to 7. -/
theorem claimC5_witness :
    (fixOverlapsFn 1 [(0, ovA), (1, ovB)] = [(0, ovA), (1, ovB \ (ovA ∩ ovB))] ∧
      gArea (ovB \ (ovA ∩ ovB)) = gArea ovB - gArea (ovA ∩ ovB)) ∧
    gArea (ovA ∩ ovB) = 3 ∧ gArea ovB = 10 ∧ gArea (ovB \ (ovA ∩ ovB)) = 7 :=
  ⟨claimC5_amended 1 ovA ovB (by with_unfolding_all decide) (by with_unfolding_all decide)
      (by with_unfolding_all decide),
   by with_unfolding_all decide, by with_unfolding_all decide, by with_unfolding_all decide⟩

theorem overlap_issue_mem (t : ℚ) (gdf : Gdf) (i j : ℕ) (a b : Geom)
    (hia : (i, a) ∈ gdf) (hjb : (j, b) ∈ gdf) (hij : i < j)
    (hI : gIntersects a b) (hover : t < gArea (a ∩ b)) :
    ({ type := IssueType.OVERLAP,
       severity := if 10 < gArea (a ∩ b) then Severity.HIGH else Severity.MEDIUM,
       location := gCentroid (a ∩ b), area := gArea (a ∩ b),
       parcelsInvolved := [i, j] } : TopologyIssue) ∈ detectOverlapsFn t gdf := by
  unfold detectOverlapsFn
  rw [List.mem_flatMap]
  refine ⟨(i, a), hia, ?_⟩
  rw [List.mem_filterMap]
  refine ⟨(j, b), ?_, ?_⟩
  · rw [List.mem_filter]
    exact ⟨hjb, by simpa using hij⟩
  · rw [if_pos ⟨hI, hover⟩]

/-- C4 (counterexample): the claim "validate on the output of fix_topology
(same thresholds, all fix flags) reports zero topology issues" is false: on
the fixed containment example the unresolved 12-cell overlap is reported,
so the issue list is not empty. -/
theorem claimC4_cex :
    (validateFn defaultFixer
        (fixTopology defaultFixer [(0, outerG), (1, innerG)] true true true true)).2 ≠ [] := by
  intro h
  have hov : detectOverlapsFn defaultFixer.overlapThreshold
      (fixTopology defaultFixer [(0, outerG), (1, innerG)] true true true true) ≠ [] := by
    with_unfolding_all decide
  unfold validateFn at h
  simp only [List.append_eq_nil] at h
  exact hov h.1.1.2

/-- C4 (amended): `validate` may be called on any geometry set, including
fix_topology output, but it need not report zero issues: every pair of rows
whose intersection area exceeds overlap_threshold yields an OVERLAP entry in
the issue list. -/
theorem claimC4_amended (f : TopoFixer) (hf : 0 ≤ f.overlapThreshold) (gdf : Gdf)
    (i j : ℕ) (a b : Geom) (hia : (i, a) ∈ gdf) (hjb : (j, b) ∈ gdf) (hij : i < j)
    (hover : f.overlapThreshold < gArea (a ∩ b)) :
    ∃ iss ∈ (validateFn f gdf).2, iss.type = IssueType.OVERLAP ∧
      iss.area = gArea (a ∩ b) ∧ iss.parcelsInvolved = [i, j] := by
  have hne : (a ∩ b).Nonempty := by
    rw [Finset.nonempty_iff_ne_empty]
    intro h0
    rw [h0] at hover
    have h1 : gArea (∅ : Geom) = 0 := by simp [gArea]
    rw [h1] at hover
    linarith
  obtain ⟨p, hp⟩ := hne
  rw [Finset.mem_inter] at hp
  have hI : gIntersects a b := ⟨p, hp.1, p, hp.2, by unfold cellsMeet; omega⟩
  have hmem := overlap_issue_mem f.overlapThreshold gdf i j a b hia hjb hij hI hover
  exact ⟨_, List.mem_append.mpr (Or.inl (List.mem_append.mpr (Or.inl
    (List.mem_append.mpr (Or.inr hmem))))), rfl, rfl, rfl⟩

/-- C4 (witness): the amended statement applied to the fixed containment
output, whose two rows still overlap by 12 > 1: validate reports an OVERLAP
issue involving parcels 0 and 1. -/
theorem claimC4_witness :
    ∃ iss ∈ (validateFn defaultFixer
        (fixTopology defaultFixer [(0, outerG), (1, innerG)] true true true true)).2,
      iss.type = IssueType.OVERLAP ∧ iss.area = gArea (outerG ∩ innerG) ∧
      iss.parcelsInvolved = [0, 1] :=
  claimC4_amended defaultFixer (by norm_num [defaultFixer])
    (fixTopology defaultFixer [(0, outerG), (1, innerG)] true true true true)
    0 1 outerG innerG (by with_unfolding_all decide) (by with_unfolding_all decide)
    (by norm_num) (by with_unfolding_all decide)

theorem updG_map_fst (l : Gdf) (i : ℕ) (g : Geom) :
    (updG l i g).map Prod.fst = l.map Prod.fst := by
  unfold updG
  rw [List.map_map]
  apply List.map_congr_left
  intro r _
  by_cases h : r.1 = i <;> simp [h]

theorem mergeSliver_map_fst (ns : Gdf) (sl : ℕ × Geom) :
    (mergeSliver ns sl).map Prod.fst = ns.map Prod.fst := by
  unfold mergeSliver
  split
  · rfl
  · exact updG_map_fst _ _ _

theorem foldl_mergeSliver_map_fst (sls : List (ℕ × Geom)) (ns : Gdf) :
    ((sls.foldl mergeSliver ns).map Prod.fst) = ns.map Prod.fst := by
  induction sls generalizing ns with
  | nil => rfl
  | cons s t ih => rw [List.foldl_cons, ih, mergeSliver_map_fst]

theorem removeSlivers_map_fst (t : ℚ) (gdf : Gdf) :
    (removeSlivers t gdf).map Prod.fst =
      (gdf.filter fun r => ¬ isSliver t r.2).map Prod.fst := by
  unfold removeSlivers
  split_ifs with h
  · exact foldl_mergeSliver_map_fst _ _
  · rfl

theorem firstMaxArea_spec (h : ℕ × Geom) (t : Gdf) :
    firstMaxArea h t ∈ h :: t ∧ ∀ r ∈ h :: t, gArea r.2 ≤ gArea (firstMaxArea h t).2 := by
  induction t generalizing h with
  | nil =>
      refine ⟨List.mem_singleton.mpr rfl, ?_⟩
      intro r hr
      rw [List.mem_singleton.mp hr]
      exact le_refl _
  | cons r' tl ih =>
      have hstep : firstMaxArea h (r' :: tl) =
          firstMaxArea (if gArea h.2 < gArea r'.2 then r' else h) tl := by
        unfold firstMaxArea
        rw [List.foldl_cons]
      obtain ⟨ihm, ihb⟩ := ih (if gArea h.2 < gArea r'.2 then r' else h)
      rw [hstep]
      constructor
      · rcases List.mem_cons.mp ihm with h1 | h1
        · rw [h1]
          split_ifs
          · exact List.mem_cons_of_mem _ (List.mem_cons_self _ _)
          · exact List.mem_cons_self _ _
        · exact List.mem_cons_of_mem _ (List.mem_cons_of_mem _ h1)
      · intro r hr
        have hhead : gArea h.2 ≤ gArea (if gArea h.2 < gArea r'.2 then r' else h).2 := by
          split_ifs with hc
          · exact le_of_lt hc
          · exact le_refl _
        have hsecond : gArea r'.2 ≤ gArea (if gArea h.2 < gArea r'.2 then r' else h).2 := by
          split_ifs with hc
          · exact le_refl _
          · exact le_of_not_lt hc
        have hselfbound := ihb _ (List.mem_cons_self _ _)
        rcases List.mem_cons.mp hr with h1 | h1
        · rw [h1]
          exact le_trans hhead hselfbound
        · rcases List.mem_cons.mp h1 with h2 | h2
          · rw [h2]
            exact le_trans hsecond hselfbound
          · exact ihb _ (List.mem_cons_of_mem _ h2)

theorem lookup_eq_of_mem_nodup {l : Gdf} {j : ℕ} {g : Geom}
    (hnd : (l.map Prod.fst).Nodup) (hmem : (j, g) ∈ l) : l.lookup j = some g := by
  induction l with
  | nil => cases hmem
  | cons r t ih =>
      rw [List.map_cons, List.nodup_cons] at hnd
      rcases List.mem_cons.mp hmem with h1 | h1
      · rw [← h1]
        simp [List.lookup]
      · have hne : j ≠ r.1 := by
          intro hEq
          apply hnd.1
          rw [List.mem_map]
          exact ⟨(j, g), h1, by rw [hEq]⟩
        have hbeq : (j == r.1) = false := beq_eq_false_iff_ne.mpr hne
        cases r with
        | mk k v =>
            simp only [List.lookup]
            simp only at hbeq
            rw [hbeq]
            exact ih hnd.2 h1

theorem removeSlivers_single (t : ℚ) (gdf : Gdf) (i : ℕ) (s : Geom)
    (hnd : (gdf.map Prod.fst).Nodup)
    (hsl : gdf.filter (fun r => isSliver t r.2) = [(i, s)]) :
    ((∀ r ∈ gdf.filter (fun r => ¬ isSliver t r.2), ¬ gTouches r.2 s) →
      removeSlivers t gdf = gdf.filter (fun r => ¬ isSliver t r.2)) ∧
    (∀ r0 ∈ gdf.filter (fun r => ¬ isSliver t r.2), gTouches r0.2 s →
      ∃ j g, (j, g) ∈ gdf.filter (fun r => ¬ isSliver t r.2) ∧ gTouches g s ∧
        (∀ r ∈ gdf.filter (fun r => ¬ isSliver t r.2), gTouches r.2 s → gArea r.2 ≤ gArea g) ∧
        removeSlivers t gdf =
          updG (gdf.filter (fun r => ¬ isSliver t r.2)) j (g ∪ s)) := by
  by_cases hns : gdf.filter (fun r => ¬ isSliver t r.2) = []
  · constructor
    · intro _
      unfold removeSlivers
      rw [hsl, hns]
      simp
    · intro r0 hr0 _
      rw [hns] at hr0
      cases hr0
  · have hred : removeSlivers t gdf =
        mergeSliver (gdf.filter (fun r => ¬ isSliver t r.2)) (i, s) := by
      unfold removeSlivers
      rw [hsl, if_pos ⟨List.cons_ne_nil _ _, hns⟩]
      rw [List.foldl_cons, List.foldl_nil]
    constructor
    · intro htouch
      have hfil : (gdf.filter (fun r => ¬ isSliver t r.2)).filter
          (fun r => gTouches r.2 (i, s).2) = [] := by
        rw [List.filter_eq_nil_iff]
        intro r hr
        simpa using htouch r hr
      rw [hred]
      unfold mergeSliver
      rw [hfil]
    · intro r0 hr0 htch
      have hr0fil : r0 ∈ (gdf.filter (fun r => ¬ isSliver t r.2)).filter
          (fun r => gTouches r.2 (i, s).2) := by
        rw [List.mem_filter]
        exact ⟨hr0, by simpa using htch⟩
      rcases hfil : (gdf.filter (fun r => ¬ isSliver t r.2)).filter
          (fun r => gTouches r.2 (i, s).2) with _ | ⟨h, tl⟩
      · rw [hfil] at hr0fil
        cases hr0fil
      · have hspec := firstMaxArea_spec h tl
        rcases hb : firstMaxArea h tl with ⟨j0, g0⟩
        have hbestfil : (j0, g0) ∈ (gdf.filter (fun r => ¬ isSliver t r.2)).filter
            (fun r => gTouches r.2 (i, s).2) := by
          rw [hfil, ← hb]
          exact hspec.1
        rw [List.mem_filter] at hbestfil
        have hbestns : (j0, g0) ∈ gdf.filter (fun r => ¬ isSliver t r.2) :=
          hbestfil.1
        have hbesttch : gTouches g0 s := by
          have hb2 := hbestfil.2
          simpa using hb2
        have hnd2 : ((gdf.filter (fun r => ¬ isSliver t r.2)).map Prod.fst).Nodup :=
          ((List.filter_sublist _).map Prod.fst).nodup hnd
        have hloc : locG (gdf.filter (fun r => ¬ isSliver t r.2)) j0 = g0 := by
          unfold locG
          rw [lookup_eq_of_mem_nodup hnd2 hbestns]
        refine ⟨j0, g0, hbestns, hbesttch, ?_, ?_⟩
        · intro r hr htr
          have hrfil : r ∈ (gdf.filter (fun r => ¬ isSliver t r.2)).filter
              (fun r => gTouches r.2 (i, s).2) := by
            rw [List.mem_filter]
            exact ⟨hr, by simpa using htr⟩
          rw [hfil] at hrfil
          have hbound := hspec.2 r hrfil
          rw [hb] at hbound
          exact hbound
        · rw [hred]
          unfold mergeSliver
          rw [hfil]
          dsimp only
          rw [hb]
          dsimp only
          rw [hloc]

/-- C6: slivers (isoperimetric quotient below sliver_threshold) are always
dropped from the output; a single sliver is merged (by union) into the
first largest-area non-sliver row that touches it, and when no non-sliver
touches it the non-sliver rows are returned unchanged (the sliver is simply
dropped); scenario: a 1 × 30 bar (quotient ≈ 0.098 < 0.1) touching a 2 × 2
square disappears under fix_topology and the neighbour's area becomes the
sum of both areas. -/
theorem claimC6_sliver_removal :
    (∀ (t : ℚ) (gdf : Gdf),
      (removeSlivers t gdf).map Prod.fst =
        (gdf.filter fun r => ¬ isSliver t r.2).map Prod.fst) ∧
    (∀ (t : ℚ) (gdf : Gdf) (i : ℕ) (s : Geom),
      (gdf.map Prod.fst).Nodup →
      gdf.filter (fun r => isSliver t r.2) = [(i, s)] →
      ((∀ r ∈ gdf.filter (fun r => ¬ isSliver t r.2), ¬ gTouches r.2 s) →
        removeSlivers t gdf = gdf.filter (fun r => ¬ isSliver t r.2)) ∧
      (∀ r0 ∈ gdf.filter (fun r => ¬ isSliver t r.2), gTouches r0.2 s →
        ∃ j g, (j, g) ∈ gdf.filter (fun r => ¬ isSliver t r.2) ∧ gTouches g s ∧
          (∀ r ∈ gdf.filter (fun r => ¬ isSliver t r.2),
            gTouches r.2 s → gArea r.2 ≤ gArea g) ∧
          removeSlivers t gdf =
            updG (gdf.filter (fun r => ¬ isSliver t r.2)) j (g ∪ s))) ∧
    (fixTopology defaultFixer [(0, sqG), (1, barG)] true true true true = [(0, sqG ∪ barG)] ∧
      isSliver defaultFixer.sliverThreshold barG ∧
      ¬ isSliver defaultFixer.sliverThreshold sqG ∧
      gTouches sqG barG ∧
      gArea (sqG ∪ barG) = gArea sqG + gArea barG) :=
  ⟨removeSlivers_map_fst, removeSlivers_single, by with_unfolding_all decide⟩

/-- C6 (witness): the single-sliver characterization applied to the bar
sliver touching the square: the square is the largest toucher and receives
the union. -/
theorem claimC6_witness :
    ∃ j g, (j, g) ∈ ([(0, sqG), (1, barG)] : Gdf).filter
        (fun r => ¬ isSliver defaultFixer.sliverThreshold r.2) ∧ gTouches g barG ∧
      (∀ r ∈ ([(0, sqG), (1, barG)] : Gdf).filter
          (fun r => ¬ isSliver defaultFixer.sliverThreshold r.2),
        gTouches r.2 barG → gArea r.2 ≤ gArea g) ∧
      removeSlivers defaultFixer.sliverThreshold [(0, sqG), (1, barG)] =
        updG (([(0, sqG), (1, barG)] : Gdf).filter
          (fun r => ¬ isSliver defaultFixer.sliverThreshold r.2)) j (g ∪ barG) :=
  (claimC6_sliver_removal.2.1 defaultFixer.sliverThreshold [(0, sqG), (1, barG)] 1 barG
      (by decide) (by with_unfolding_all decide)).2
    (0, sqG) (by with_unfolding_all decide) (by with_unfolding_all decide)
